import Mathlib

/-!
Shallow embedding of the CoreCalendar client-side event-layout engine
(src/crates/webserver/html_src/calendar.js and calendar-extras.js).

Instants are modelled as integer milliseconds since the epoch, exactly the
value space of a JavaScript Date.  The host timezone (which JavaScript uses
for Date#setHours, Date#getHours, the Date constructor from civil fields and
Date#toDateString) is modelled as a fixed UTC offset offH in milliseconds.
The Intl timezone database consumed by toLocaleString/Intl.DateTimeFormat is
an external collaborator; per the collaborator contract it yields, for a
display timezone, the UTC offset in force at a given instant, and it throws
on an unsupported timezone identifier.  Division on Int is Euclidean, which
for the positive divisors used here (milliseconds per day, per minute)
coincides with the floor division JavaScript performs on date arithmetic.
-/

def msPerMinute : Int := 60000

def msPerDay : Int := 86400000

/-- An event as stored by the app: opaque identifier, title, absolute start
and end instants in milliseconds, calendar key, all-day flag. -/
structure Event where
  id : String
  title : String
  startDate : Int
  endDate : Int
  calendar : String
  allDay : Bool
deriving Repr, DecidableEq

/-- Model of a display-timezone entry of the Intl timezone database
(external collaborator): either the identifier is unsupported
(formatting throws a RangeError), or it is supported and determines the
UTC offset, in milliseconds, in force at each absolute instant. -/
structure TimeZone where
  valid : Bool
  offsetAt : Int → Int

/-- The UTC display timezone: always supported, offset 0 at every instant. -/
def utcTZ : TimeZone where
  valid := true
  offsetAt := fun _ => 0

/-- A display timezone whose identifier Intl does not support: every
formatting call throws. -/
def invalidTZ : TimeZone where
  valid := false
  offsetAt := fun _ => 0

/-- Modelled from the spec: the Intl collaborator's America/Los_Angeles
offsets during 2025 (the DST rules are implemented by the browser, not by
repository code): UTC-7 between 2025-03-09T10:00Z and 2025-11-02T09:00Z
(daylight saving), UTC-8 otherwise. -/
def laTZ : TimeZone where
  valid := true
  offsetAt := fun t =>
    if 1741514400000 ≤ t ∧ t < 1762074000000 then -25200000 else -28800000

/-- Truncation of an instant to a whole minute, as performed by formatting a
Date with hour/minute fields only and rebuilding a Date from them. -/
def minuteFloor (m : Int) : Int := msPerMinute * (m / msPerMinute)

/-- Index of the civil day containing instant t for a host at fixed UTC
offset off (the day selected by Date#toDateString / Date#setHours). -/
def localDayIndex (off t : Int) : Int := (t + off) / msPerDay

/-- Absolute instant of local midnight of the civil day containing t, i.e.
the value of new Date(t) after setHours(0, 0, 0, 0). -/
def dayStartOf (off t : Int) : Int := msPerDay * localDayIndex off t - off

/-- Minutes elapsed since local midnight at the instant conv, i.e.
getHours() * 60 + getMinutes() of the Date holding conv. -/
def civilMinutesOfDay (off conv : Int) : Int :=
  ((conv + off) % msPerDay) / msPerMinute

/-- convertUTCToTZ from calendar.js: format the instant in the display
timezone with year/month/day/hour/minute fields (seconds are dropped by the
format, hence the truncation to a whole minute), then rebuild a Date from
the civil fields, which the Date constructor interprets in the host
timezone.  No try/catch surrounds the formatting call, so an unsupported
timezone identifier propagates the RangeError to the caller. -/
def convertUTCToTZ (offH : Int) (t : Int) (tz : TimeZone) : Except Unit Int :=
  if tz.valid then .ok (minuteFloor (t + tz.offsetAt t) - offH) else .error ()

/-- tzOffsetMinutes from calendar-extras.js: the display timezone's offset
at the given instant in whole minutes; its try/catch returns offset 0 (UTC)
when the timezone identifier is unsupported. -/
def tzOffsetMinutes (tz : TimeZone) (t : Int) : Int :=
  if tz.valid then tz.offsetAt t / msPerMinute else 0

/-- The open-interval overlap test used by groupConflictingEvents:
candidate.start < member.end and candidate.end > member.start. -/
def overlaps (a b : Event) : Bool :=
  decide (a.startDate < b.endDate) && decide (a.endDate > b.startDate)

/-- getEventsForDate, first copy (lines 1155-1168 of calendar.js): keep the
events whose start is at or before 23:59:59.999 of the target civil day and
whose end is at or after 00:00:00.000 of that day. -/
def getEventsForDate (off : Int) (events : List Event) (date : Int) :
    List Event :=
  let startOfDay := dayStartOf off date
  let endOfDay := startOfDay + msPerDay - 1
  events.filter fun e =>
    decide (e.startDate ≤ endOfDay) && decide (e.endDate ≥ startOfDay)

/-- getEventsForDate, second copy (lines 2246-2252 of calendar.js): keep the
events whose start instant falls on the target civil day
(toDateString comparison). -/
def getEventsForDate2 (off : Int) (events : List Event) (date : Int) :
    List Event :=
  events.filter fun e =>
    decide (localDayIndex off e.startDate = localDayIndex off date)

/-- One step of groupConflictingEvents: scan the existing groups in order
and append the event to the first group containing a member that overlaps
it; if no group conflicts, append a new singleton group at the end. -/
def insertEvent (groups : List (List Event)) (e : Event) :
    List (List Event) :=
  match groups with
  | [] => [[e]]
  | g :: gs =>
    if g.any (fun ge => overlaps e ge) then (g ++ [e]) :: gs
    else g :: insertEvent gs e

/-- groupConflictingEvents from calendar.js (both copies are identical):
greedy single pass over the events in their given order. -/
def groupConflictingEvents (events : List Event) : List (List Event) :=
  events.foldl insertEvent []

/-- The geometry the day view computes for one event, before conversion to
pixels: minutes from the top of the day column, height in minutes, column
index and group width for horizontal splitting, the border-radius
suppression flags for multi-day spillover, and the past/future flag. -/
structure EventRect where
  id : String
  eventMinutes : Int
  eventDuration : ℚ
  column : Nat
  columnsInGroup : Nat
  continuesFromPrevDay : Bool
  continuesToNextDay : Bool
  isPast : Bool
deriving Repr, DecidableEq

/-- The geometry computation of renderEventsForDay (first copy, lines
1006-1076 of calendar.js) for one event, given the already-converted start
and end instants. -/
def layoutGeom (offH date now : Int) (g i : Nat) (idStr : String)
    (eventStart eventEnd : Int) : EventRect :=
  let duration : ℚ := ((eventEnd - eventStart : Int) : ℚ) / (msPerMinute : ℚ)
  let startOfDay := dayStartOf offH date
  let endOfDay := startOfDay + msPerDay - 1
  let eventMinutes :=
    if eventStart < startOfDay then 0 else civilMinutesOfDay offH eventStart
  let eventDuration0 : ℚ :=
    if eventStart < startOfDay then
      ((min eventEnd (startOfDay + msPerDay) - startOfDay : Int) : ℚ) /
        (msPerMinute : ℚ)
    else duration
  let eventDuration : ℚ :=
    if eventEnd > endOfDay then
      ((endOfDay - (if eventStart > startOfDay then eventStart else startOfDay) :
          Int) : ℚ) / (msPerMinute : ℚ)
    else eventDuration0
  { id := idStr
    eventMinutes := eventMinutes
    eventDuration := eventDuration
    column := i
    columnsInGroup := g
    continuesFromPrevDay := decide (eventStart < startOfDay)
    continuesToNextDay := decide (eventEnd > endOfDay)
    isPast := decide (eventEnd < now) }

/-- Layout of one event in renderEventsForDay: convert both endpoints to the
display timezone (this is where an unsupported timezone identifier throws)
and compute the geometry. -/
def layoutEvent (offH : Int) (tz : TimeZone) (date now : Int) (g i : Nat)
    (e : Event) : Except Unit EventRect := do
  let eventStart ← convertUTCToTZ offH e.startDate tz
  let eventEnd ← convertUTCToTZ offH e.endDate tz
  pure (layoutGeom offH date now g i e.id eventStart eventEnd)

/-- The inner forEach of renderEventsForDay over one overlap group: each
member is taken with its index in the group (a skipped member still consumes
its index); an event whose calendar key has no entry in the calendar mapping
is skipped silently, every other event is laid out. -/
def layoutGroupAux (offH : Int) (tz : TimeZone)
    (cals : List (String × String)) (date now : Int) (g : Nat) :
    Nat → List Event → Except Unit (List EventRect)
  | _, [] => .ok []
  | i, e :: rest =>
    match cals.lookup e.calendar with
    | none => layoutGroupAux offH tz cals date now g (i + 1) rest
    | some _ => do
      let r ← layoutEvent offH tz date now g i e
      let rs ← layoutGroupAux offH tz cals date now g (i + 1) rest
      pure (r :: rs)

/-- renderEventsForDay, first copy (lines 977-1109 of calendar.js), reduced
to the geometry it produces: filter the events to the day, group them by
time conflicts, and lay out every group. -/
def renderEventsForDay (offH : Int) (tz : TimeZone)
    (cals : List (String × String)) (events : List Event) (date now : Int) :
    Except Unit (List EventRect) := do
  let dayEvents := getEventsForDate offH events date
  let eventGroups := groupConflictingEvents dayEvents
  let rss ← eventGroups.mapM fun grp =>
    layoutGroupAux offH tz cals date now grp.length 0 grp
  pure rss.flatten

/-- What the month view records for one rendered event. -/
structure MonthRect where
  id : String
  isPast : Bool
deriving Repr, DecidableEq

/-- The forEach of renderEventsForMonthDay: skip events whose calendar key
is unknown, otherwise convert the end instant and record the past flag. -/
def layoutMonthAux (offH : Int) (tz : TimeZone)
    (cals : List (String × String)) (now : Int) :
    List Event → Except Unit (List MonthRect)
  | [] => .ok []
  | e :: rest =>
    match cals.lookup e.calendar with
    | none => layoutMonthAux offH tz cals now rest
    | some _ => do
      let ee ← convertUTCToTZ offH e.endDate tz
      let rs ← layoutMonthAux offH tz cals now rest
      pure (⟨e.id, decide (ee < now)⟩ :: rs)

/-- renderEventsForMonthDay (lines 1111-1153 of calendar.js), reduced to the
per-event records it produces. -/
def renderEventsForMonthDay (offH : Int) (tz : TimeZone)
    (cals : List (String × String)) (events : List Event) (date now : Int) :
    Except Unit (List MonthRect) :=
  layoutMonthAux offH tz cals now (getEventsForDate offH events date)

/-- The vertical position fraction of a rectangle: minutes from the top of
the day over the minutes in a day (the code multiplies this fraction by the
available pixel height). -/
def topFraction (r : EventRect) : ℚ := (r.eventMinutes : ℚ) / 1440

/-- Follows the spec's words (refinement reference for getEventsForDate):
the half-open event interval intersects the half-open day interval
in UTC-absolute terms. -/
def specIntersectsDay (off : Int) (e : Event) (date : Int) : Bool :=
  decide (e.startDate < dayStartOf off date + msPerDay) &&
    decide (e.endDate > dayStartOf off date)

/-- One invocation of the day-view render pass against a container: the pass
first removes every element of class event from the container (all the
nodes this model puts in a container carry that class), then appends the
freshly computed geometry.  It reads nothing else from the container and
keeps no state between invocations. -/
def renderPass (offH : Int) (tz : TimeZone) (cals : List (String × String))
    (events : List Event) (date now : Int) (container : List EventRect) :
    Except Unit (List EventRect) :=
  (renderEventsForDay offH tz cals events date now).map fun rs =>
    container.filter (fun _ => false) ++ rs

example : groupConflictingEvents
    [⟨"a", "A", 0, 60, "p", false⟩, ⟨"b", "B", 30, 90, "p", false⟩,
     ⟨"c", "C", 80, 120, "p", false⟩] =
    [[⟨"a", "A", 0, 60, "p", false⟩, ⟨"b", "B", 30, 90, "p", false⟩,
      ⟨"c", "C", 80, 120, "p", false⟩]] := by decide

example : groupConflictingEvents
    [⟨"a", "A", 0, 60, "p", false⟩, ⟨"c", "C", 80, 120, "p", false⟩,
     ⟨"b", "B", 30, 90, "p", false⟩] =
    [[⟨"a", "A", 0, 60, "p", false⟩, ⟨"b", "B", 30, 90, "p", false⟩],
     [⟨"c", "C", 80, 120, "p", false⟩]] := by decide

/-! Helper lemmas about the greedy grouping. -/

theorem overlaps_comm (a b : Event) : overlaps a b = overlaps b a := by
  simp only [overlaps, gt_iff_lt]
  rw [Bool.and_comm]

theorem insertEvent_flatten_perm (gs : List (List Event)) (e : Event) :
    (insertEvent gs e).flatten.Perm (gs.flatten ++ [e]) := by
  induction gs with
  | nil => simp [insertEvent]
  | cons g gs ih =>
    by_cases h : g.any (fun ge => overlaps e ge) = true
    · simp only [insertEvent, if_pos h, List.flatten_cons, List.append_assoc]
      exact List.Perm.append_left g List.perm_append_comm
    · simp only [insertEvent, if_neg h, List.flatten_cons, List.append_assoc]
      exact List.Perm.append_left g ih

theorem foldl_insertEvent_flatten_perm (es : List Event) :
    ∀ gs : List (List Event),
      (es.foldl insertEvent gs).flatten.Perm (gs.flatten ++ es) := by
  induction es with
  | nil => intro gs; simp
  | cons e es ih =>
    intro gs
    refine ((ih (insertEvent gs e)).trans ?_)
    refine ((insertEvent_flatten_perm gs e).append_right es).trans ?_
    simp

theorem groupConflictingEvents_flatten_perm (es : List Event) :
    (groupConflictingEvents es).flatten.Perm es := by
  simpa using foldl_insertEvent_flatten_perm es []

theorem insertEvent_ne_nil (gs : List (List Event)) (e : Event)
    (h : ∀ g ∈ gs, g ≠ []) : ∀ g ∈ insertEvent gs e, g ≠ [] := by
  induction gs with
  | nil =>
    intro g hg
    simp [insertEvent] at hg
    simp [hg]
  | cons g0 gs ih =>
    intro g hg
    by_cases hc : g0.any (fun ge => overlaps e ge) = true
    · simp only [insertEvent, if_pos hc, List.mem_cons] at hg
      rcases hg with hg | hg
      · subst hg; simp
      · exact h g (List.mem_cons_of_mem _ hg)
    · simp only [insertEvent, if_neg hc, List.mem_cons] at hg
      rcases hg with hg | hg
      · subst hg; exact h g (List.mem_cons_self _ _)
      · exact ih (fun g' hg' => h g' (List.mem_cons_of_mem _ hg')) g hg

theorem foldl_insertEvent_ne_nil (es : List Event) :
    ∀ gs : List (List Event), (∀ g ∈ gs, g ≠ []) →
      ∀ g ∈ es.foldl insertEvent gs, g ≠ [] := by
  induction es with
  | nil => intro gs h; simpa using h
  | cons e es ih =>
    intro gs h
    exact ih (insertEvent gs e) (insertEvent_ne_nil gs e h)

theorem groupConflictingEvents_ne_nil (es : List Event) :
    ∀ g ∈ groupConflictingEvents es, g ≠ [] := by
  exact foldl_insertEvent_ne_nil es [] (by simp)

theorem insertEvent_sublist (gs : List (List Event)) (e : Event)
    (p : List Event) (h : ∀ g ∈ gs, g.Sublist p) :
    ∀ g ∈ insertEvent gs e, g.Sublist (p ++ [e]) := by
  induction gs with
  | nil =>
    intro g hg
    simp [insertEvent] at hg
    subst hg
    exact List.sublist_append_right p [e]
  | cons g0 gs ih =>
    intro g hg
    by_cases hc : g0.any (fun ge => overlaps e ge) = true
    · simp only [insertEvent, if_pos hc, List.mem_cons] at hg
      rcases hg with hg | hg
      · subst hg
        exact (h g0 (List.mem_cons_self _ _)).append (List.Sublist.refl [e])
      · exact (h g (List.mem_cons_of_mem _ hg)).trans
          (List.sublist_append_left p [e])
    · simp only [insertEvent, if_neg hc, List.mem_cons] at hg
      rcases hg with hg | hg
      · subst hg
        exact (h g (List.mem_cons_self _ _)).trans
          (List.sublist_append_left p [e])
      · exact ih (fun g' hg' => h g' (List.mem_cons_of_mem _ hg')) g hg

theorem foldl_insertEvent_sublist (es : List Event) :
    ∀ (gs : List (List Event)) (p : List Event),
      (∀ g ∈ gs, g.Sublist p) →
      ∀ g ∈ es.foldl insertEvent gs, g.Sublist (p ++ es) := by
  induction es with
  | nil => intro gs p h; simpa using h
  | cons e es ih =>
    intro gs p h g hg
    have := ih (insertEvent gs e) (p ++ [e])
      (insertEvent_sublist gs e p h) g hg
    simpa using this

theorem groupConflictingEvents_sublist (es : List Event) :
    ∀ g ∈ groupConflictingEvents es, g.Sublist es := by
  have := foldl_insertEvent_sublist es [] [] (by simp)
  simpa using this

theorem insertEvent_leaders (gs : List (List Event)) (e : Event)
    (h : ∀ g ∈ gs, g ≠ []) :
    (insertEvent gs e).filterMap List.head? = gs.filterMap List.head? ∨
    (insertEvent gs e).filterMap List.head? =
      gs.filterMap List.head? ++ [e] := by
  induction gs with
  | nil =>
    right
    simp [insertEvent]
  | cons g0 gs ih =>
    have hg0 : g0 ≠ [] := h g0 (List.mem_cons_self _ _)
    by_cases hc : g0.any (fun ge => overlaps e ge) = true
    · left
      simp only [insertEvent, if_pos hc]
      cases g0 with
      | nil => exact absurd rfl hg0
      | cons a t => simp
    · rcases ih (fun g' hg' => h g' (List.mem_cons_of_mem _ hg')) with
        hih | hih
      · left
        simp only [insertEvent, if_neg hc, List.filterMap_cons]
        cases g0 with
        | nil => exact absurd rfl hg0
        | cons a t => simp [hih]
      · right
        simp only [insertEvent, if_neg hc, List.filterMap_cons]
        cases g0 with
        | nil => exact absurd rfl hg0
        | cons a t => simp [hih]

theorem foldl_insertEvent_leaders (es : List Event) :
    ∀ gs : List (List Event), (∀ g ∈ gs, g ≠ []) →
      ((es.foldl insertEvent gs).filterMap List.head?).Sublist
        ((gs.filterMap List.head?) ++ es) := by
  induction es with
  | nil => intro gs _; simp
  | cons e es ih =>
    intro gs h
    have hne := insertEvent_ne_nil gs e h
    have hih := ih (insertEvent gs e) hne
    rcases insertEvent_leaders gs e h with hl | hl
    · rw [List.foldl_cons]
      refine hih.trans ?_
      rw [hl]
      exact (List.sublist_cons_self e es).append_left _
    · rw [List.foldl_cons]
      refine hih.trans ?_
      rw [hl]
      simp

theorem groupConflictingEvents_leaders (es : List Event) :
    (((groupConflictingEvents es).filterMap List.head?)).Sublist es := by
  simpa using foldl_insertEvent_leaders es [] (by simp)

theorem countP_mem_groups_eq_one (l : List (List Event)) (e : Event) :
    l.flatten.Nodup → e ∈ l.flatten →
      l.countP (fun g => decide (e ∈ g)) = 1 := by
  induction l with
  | nil => intro _ he; simp at he
  | cons g gs ih =>
    intro hnd he
    rw [List.flatten_cons] at hnd he
    rcases List.nodup_append.mp hnd with ⟨h1, h2, hdisj⟩
    by_cases hg : e ∈ g
    · have hnot : e ∉ gs.flatten := fun hmem => hdisj hg hmem
      have hzero : gs.countP (fun g' => decide (e ∈ g')) = 0 := by
        rw [List.countP_eq_zero]
        intro g' hg'
        simp only [decide_eq_true_eq]
        intro hmem'
        exact hnot (List.mem_flatten.mpr ⟨g', hg', hmem'⟩)
      rw [List.countP_cons]
      simp [hg, hzero]
    · have he' : e ∈ gs.flatten := by
        rcases List.mem_append.mp he with h | h
        · exact absurd h hg
        · exact h
      rw [List.countP_cons]
      simp [hg, ih h2 he']

/-! Helper lemmas about the layout pass. -/

theorem convertUTCToTZ_ok (offH t : Int) (tz : TimeZone)
    (h : tz.valid = true) :
    convertUTCToTZ offH t tz =
      .ok (minuteFloor (t + tz.offsetAt t) - offH) := by
  simp [convertUTCToTZ, h]

theorem convertUTCToTZ_error (offH t : Int) (tz : TimeZone)
    (h : tz.valid = false) :
    convertUTCToTZ offH t tz = .error () := by
  simp [convertUTCToTZ, h]

theorem layoutEvent_ok (offH : Int) (tz : TimeZone) (date now : Int)
    (g i : Nat) (e : Event) (h : tz.valid = true) :
    layoutEvent offH tz date now g i e =
      .ok (layoutGeom offH date now g i e.id
        (minuteFloor (e.startDate + tz.offsetAt e.startDate) - offH)
        (minuteFloor (e.endDate + tz.offsetAt e.endDate) - offH)) := by
  rw [layoutEvent, convertUTCToTZ_ok offH e.startDate tz h,
    convertUTCToTZ_ok offH e.endDate tz h]
  rfl

theorem layoutEvent_error (offH : Int) (tz : TimeZone) (date now : Int)
    (g i : Nat) (e : Event) (h : tz.valid = false) :
    layoutEvent offH tz date now g i e = .error () := by
  rw [layoutEvent, convertUTCToTZ_error offH e.startDate tz h]
  rfl

theorem layoutGroupAux_ok (offH : Int) (tz : TimeZone)
    (cals : List (String × String)) (date now : Int) (g : Nat)
    (h : tz.valid = true) :
    ∀ (es : List Event) (i : Nat),
      ∃ rects, layoutGroupAux offH tz cals date now g i es = .ok rects ∧
        rects.map (fun r => r.id) =
          (es.filter
            (fun e => (cals.lookup e.calendar).isSome)).map
            (fun e => e.id) := by
  intro es
  induction es with
  | nil => intro i; exact ⟨[], rfl, by simp⟩
  | cons e rest ih =>
    intro i
    obtain ⟨rects, hrects, hids⟩ := ih (i + 1)
    cases hlook : cals.lookup e.calendar with
    | none =>
      refine ⟨rects, ?_, ?_⟩
      · simp only [layoutGroupAux, hlook]
        exact hrects
      · rw [hids]
        congr 1
        simp [List.filter_cons, hlook]
    | some c =>
      refine ⟨layoutGeom offH date now g i e.id
        (minuteFloor (e.startDate + tz.offsetAt e.startDate) - offH)
        (minuteFloor (e.endDate + tz.offsetAt e.endDate) - offH) :: rects,
        ?_, ?_⟩
      · simp only [layoutGroupAux, hlook, layoutEvent_ok offH tz date now g i e h,
          hrects]
        rfl
      · simp [List.filter_cons, hlook, layoutGeom, hids]

theorem layoutGroupAux_known_ok (offH : Int) (tz : TimeZone)
    (cals : List (String × String)) (date now : Int) (g : Nat)
    (h : tz.valid = true) :
    ∀ (es : List Event) (i : Nat),
      (∀ e ∈ es, (cals.lookup e.calendar).isSome = true) →
      ∃ rects, layoutGroupAux offH tz cals date now g i es = .ok rects ∧
        rects.map (fun r => r.id) = es.map (fun e => e.id) ∧
        rects.map (fun r => r.column) = List.range' i es.length := by
  intro es
  induction es with
  | nil => intro i _; exact ⟨[], rfl, by simp, by simp⟩
  | cons e rest ih =>
    intro i hknown
    obtain ⟨rects, hrects, hids, hcols⟩ := ih (i + 1)
      (fun e' he' => hknown e' (List.mem_cons_of_mem _ he'))
    have hk := hknown e (List.mem_cons_self _ _)
    cases hlook : cals.lookup e.calendar with
    | none => rw [hlook] at hk; simp at hk
    | some c =>
      refine ⟨layoutGeom offH date now g i e.id
        (minuteFloor (e.startDate + tz.offsetAt e.startDate) - offH)
        (minuteFloor (e.endDate + tz.offsetAt e.endDate) - offH) :: rects,
        ?_, ?_, ?_⟩
      · simp only [layoutGroupAux, hlook, layoutEvent_ok offH tz date now g i e h,
          hrects]
        rfl
      · simp [layoutGeom, hids]
      · simp [layoutGeom, hcols, List.range'_succ]

theorem layoutGroupAux_error (offH : Int) (tz : TimeZone)
    (cals : List (String × String)) (date now : Int) (g : Nat)
    (h : tz.valid = false) :
    ∀ (es : List Event) (i : Nat),
      (∃ e ∈ es, (cals.lookup e.calendar).isSome = true) →
      layoutGroupAux offH tz cals date now g i es = .error () := by
  intro es
  induction es with
  | nil => intro i hex; simp at hex
  | cons e rest ih =>
    intro i hex
    cases hlook : cals.lookup e.calendar with
    | none =>
      obtain ⟨e', he', hsome⟩ := hex
      rcases List.mem_cons.mp he' with he' | he'
      · subst he'; rw [hlook] at hsome; simp at hsome
      · simp only [layoutGroupAux, hlook]
        exact ih (i + 1) ⟨e', he', hsome⟩
    | some c =>
      simp only [layoutGroupAux, hlook,
        layoutEvent_error offH tz date now g i e h]
      rfl

theorem mapM_error_of_mem {α β : Type} (f : α → Except Unit β)
    (l : List α) (hex : ∃ x ∈ l, f x = .error ()) :
    l.mapM f = .error () := by
  induction l with
  | nil => simp at hex
  | cons a l ih =>
    cases hfa : f a with
    | error u =>
      cases u
      rw [List.mapM_cons, hfa]
      rfl
    | ok v =>
      obtain ⟨x, hx, hfx⟩ := hex
      rcases List.mem_cons.mp hx with hx | hx
      · subst hx; rw [hfa] at hfx; exact absurd hfx (by simp)
      · rw [List.mapM_cons, hfa, ih ⟨x, hx, hfx⟩]
        rfl

theorem mapM_layout_ok (offH : Int) (tz : TimeZone)
    (cals : List (String × String)) (date now : Int)
    (h : tz.valid = true) (groups : List (List Event)) :
    ∃ rss, (groups.mapM fun grp =>
        layoutGroupAux offH tz cals date now grp.length 0 grp) = .ok rss ∧
      rss.flatten.map (fun r => r.id) =
        (groups.flatten.filter
          (fun e => (cals.lookup e.calendar).isSome)).map
          (fun e => e.id) := by
  induction groups with
  | nil => exact ⟨[], rfl, by simp⟩
  | cons grp groups ih =>
    obtain ⟨rss, hrss, hids⟩ := ih
    obtain ⟨rects, hrects, hids0⟩ :=
      layoutGroupAux_ok offH tz cals date now grp.length h grp 0
    refine ⟨rects :: rss, ?_, ?_⟩
    · rw [List.mapM_cons, hrects, hrss]
      rfl
    · simp [List.filter_append, hids0, hids]

theorem renderEventsForDay_ok (offH : Int) (tz : TimeZone)
    (cals : List (String × String)) (events : List Event) (date now : Int)
    (h : tz.valid = true) :
    ∃ rs, renderEventsForDay offH tz cals events date now = .ok rs ∧
      rs.map (fun r => r.id) =
        ((groupConflictingEvents
          (getEventsForDate offH events date)).flatten.filter
          (fun e => (cals.lookup e.calendar).isSome)).map
          (fun e => e.id) := by
  obtain ⟨rss, hrss, hids⟩ := mapM_layout_ok offH tz cals date now h
    (groupConflictingEvents (getEventsForDate offH events date))
  refine ⟨rss.flatten, ?_, hids⟩
  rw [renderEventsForDay]
  rw [hrss]
  rfl

theorem renderEventsForDay_error (offH : Int) (tz : TimeZone)
    (cals : List (String × String)) (events : List Event) (date now : Int)
    (h : tz.valid = false)
    (hex : ∃ e ∈ getEventsForDate offH events date,
      (cals.lookup e.calendar).isSome = true) :
    renderEventsForDay offH tz cals events date now = .error () := by
  obtain ⟨e, he, hsome⟩ := hex
  have hmem : e ∈ (groupConflictingEvents
      (getEventsForDate offH events date)).flatten :=
    ((groupConflictingEvents_flatten_perm _).mem_iff).mpr he
  obtain ⟨grp, hgrp, hegrp⟩ := List.mem_flatten.mp hmem
  have hmapm := mapM_error_of_mem
    (fun grp => layoutGroupAux offH tz cals date now grp.length 0 grp)
    (groupConflictingEvents (getEventsForDate offH events date))
    ⟨grp, hgrp,
      layoutGroupAux_error offH tz cals date now grp.length h grp 0
        ⟨e, hegrp, hsome⟩⟩
  rw [renderEventsForDay, hmapm]
  rfl

theorem layoutMonthAux_ok (offH : Int) (tz : TimeZone)
    (cals : List (String × String)) (now : Int) (h : tz.valid = true) :
    ∀ es : List Event,
      ∃ rects, layoutMonthAux offH tz cals now es = .ok rects ∧
        rects.map (fun r => r.id) =
          (es.filter
            (fun e => (cals.lookup e.calendar).isSome)).map
            (fun e => e.id) := by
  intro es
  induction es with
  | nil => exact ⟨[], rfl, by simp⟩
  | cons e rest ih =>
    obtain ⟨rects, hrects, hids⟩ := ih
    cases hlook : cals.lookup e.calendar with
    | none =>
      refine ⟨rects, ?_, ?_⟩
      · simp only [layoutMonthAux, hlook]
        exact hrects
      · rw [hids]
        congr 1
        simp [List.filter_cons, hlook]
    | some c =>
      refine ⟨⟨e.id, decide (minuteFloor (e.endDate + tz.offsetAt e.endDate)
          - offH < now)⟩ :: rects, ?_, ?_⟩
      · simp only [layoutMonthAux, hlook,
          convertUTCToTZ_ok offH e.endDate tz h, hrects]
        rfl
      · simp [List.filter_cons, hlook, hids]

/-! Arithmetic helper lemmas. -/

theorem minuteFloor_eq_self {x : Int} (h : x % msPerMinute = 0) :
    minuteFloor x = x := by
  simp only [minuteFloor, msPerMinute] at h ⊢
  omega

theorem dayStartOf_zero_mul (d : Int) :
    dayStartOf 0 (msPerDay * d) = msPerDay * d := by
  simp only [dayStartOf, localDayIndex, add_zero, sub_zero]
  rw [Int.mul_ediv_cancel_left _ (by norm_num [msPerDay])]

/-! Concrete demonstration data used by witnesses and counterexamples. -/

def demoCals : List (String × String) :=
  [("personal", "#007bff"), ("work", "#28a745")]

def evA : Event := ⟨"a", "A", 0, 3600000, "personal", false⟩

def evB : Event := ⟨"b", "B", 1800000, 5400000, "personal", false⟩

def evC : Event := ⟨"c", "C", 5000000, 7200000, "work", false⟩

/-! Claim C1. -/

/-- C1: groupConflictingEvents performs greedy single-pass grouping: on the
chain A-B, B-C (A and C not overlapping) given in that order, all three land
in one group; each group lists its events in insertion order (it is a
subsequence of the input), and the groups themselves appear in the insertion
order of their first members (the leaders form a subsequence of the
input). -/
theorem c1_greedy_grouping (A B C : Event)
    (hAB : overlaps A B = true) (hBC : overlaps B C = true)
    (hAC : overlaps A C = false) :
    groupConflictingEvents [A, B, C] = [[A, B, C]] ∧
    (∀ es : List Event, ∀ g ∈ groupConflictingEvents es, g.Sublist es) ∧
    (∀ es : List Event,
      ((groupConflictingEvents es).filterMap List.head?).Sublist es) := by
  refine ⟨?_, groupConflictingEvents_sublist, groupConflictingEvents_leaders⟩
  have hBA : overlaps B A = true := by rw [overlaps_comm]; exact hAB
  have hCB : overlaps C B = true := by rw [overlaps_comm]; exact hBC
  have hCA : overlaps C A = false := by rw [overlaps_comm]; exact hAC
  show insertEvent (insertEvent (insertEvent [] A) B) C = [[A, B, C]]
  simp [insertEvent, hBA, hCB, hCA]

/-- Witness for C1 at concrete events. -/
theorem c1_witness :
    overlaps evA evB = true ∧ overlaps evB evC = true ∧
    overlaps evA evC = false ∧
    groupConflictingEvents [evA, evB, evC] = [[evA, evB, evC]] :=
  ⟨by decide, by decide, by decide,
    (c1_greedy_grouping evA evB evC (by decide) (by decide) (by decide)).1⟩

/-! Claim C10. -/

/-- C10: groupConflictingEvents partitions its input: the concatenation of
the groups is a permutation of the input list, no group is empty, every
event keeps its multiplicity, and for duplicate-free input each event lies
in exactly one group. -/
theorem c10_partition (es : List Event) :
    ((groupConflictingEvents es).flatten).Perm es ∧
    (∀ g ∈ groupConflictingEvents es, g ≠ []) ∧
    (∀ e : Event,
      ((groupConflictingEvents es).map (fun g => g.count e)).sum =
        es.count e) ∧
    (es.Nodup → ∀ e ∈ es,
      (groupConflictingEvents es).countP (fun g => decide (e ∈ g)) = 1) := by
  have hperm := groupConflictingEvents_flatten_perm es
  refine ⟨hperm, groupConflictingEvents_ne_nil es, ?_, ?_⟩
  · intro e
    rw [← List.count_flatten]
    exact hperm.count_eq e
  · intro hnd e he
    exact countP_mem_groups_eq_one _ e (hperm.nodup_iff.mpr hnd)
      (hperm.mem_iff.mpr he)

/-- Witness for C10 at a concrete list. -/
theorem c10_witness :
    ((groupConflictingEvents [evA, evC, evB]).flatten).Perm
      [evA, evC, evB] ∧
    (groupConflictingEvents [evA, evC, evB]).countP
      (fun g => decide (evB ∈ g)) = 1 :=
  ⟨(c10_partition [evA, evC, evB]).1,
    (c10_partition [evA, evC, evB]).2.2.2 (by decide) evB (by decide)⟩

/-! Claim C2. -/

def evMulti : Event := ⟨"m", "Multi", 0, 172800001, "personal", false⟩

/-- C2 counterexample: an event spanning three civil days is not returned by
the second copy of getEventsForDate for the middle day, although its
half-open interval intersects that day's half-open interval. -/
theorem c2_counterexample :
    getEventsForDate2 0 [evMulti] 86400000 = [] ∧
    specIntersectsDay 0 evMulti 86400000 = true := by
  constructor
  · decide
  · decide

/-- C2 (amended): the first copy of getEventsForDate returns exactly the
events with start at or before the day's last millisecond and end at or
after the day's first millisecond (so every spec-intersecting event is
included, but so is an event ending exactly at the day's start); the second
copy returns exactly the events whose start instant falls on the target
civil day, so a multi-day event appears only on its start day. -/
theorem c2_amended_characterization (off : Int) (events : List Event)
    (date : Int) (e : Event) :
    (e ∈ getEventsForDate off events date ↔
      e ∈ events ∧ e.startDate ≤ dayStartOf off date + msPerDay - 1 ∧
        dayStartOf off date ≤ e.endDate) ∧
    (e ∈ getEventsForDate2 off events date ↔
      e ∈ events ∧ localDayIndex off e.startDate = localDayIndex off date) ∧
    (specIntersectsDay off e date = true → e ∈ events →
      e ∈ getEventsForDate off events date) := by
  have h1 : e ∈ getEventsForDate off events date ↔
      e ∈ events ∧ e.startDate ≤ dayStartOf off date + msPerDay - 1 ∧
        dayStartOf off date ≤ e.endDate := by
    simp [getEventsForDate, List.mem_filter, ge_iff_le, and_assoc]
  refine ⟨h1, ?_, ?_⟩
  · simp [getEventsForDate2, List.mem_filter]
  · intro hspec hmem
    simp only [specIntersectsDay, Bool.and_eq_true, decide_eq_true_eq] at hspec
    exact h1.mpr ⟨hmem, by omega, by omega⟩

/-- Witness for C2's amended characterization at a concrete input. -/
theorem c2_witness :
    specIntersectsDay 0 evMulti 86400000 = true ∧
    evMulti ∈ getEventsForDate 0 [evMulti] 86400000 :=
  ⟨by decide,
    (c2_amended_characterization 0 [evMulti] 86400000 evMulti).2.2
      (by decide) (by decide)⟩

/-! Claim C3. -/

def evLexB : Event := ⟨"b", "LexB", 0, 3600000, "personal", false⟩

def evLexA : Event := ⟨"a", "LexA", 0, 3600000, "personal", false⟩

/-- C3 counterexample: two events with identical start instants are rendered
with columns in input order, so the event with the lexicographically larger
identifier receives the smaller column index when it comes first. -/
theorem c3_counterexample :
    (renderEventsForDay 0 utcTZ demoCals [evLexB, evLexA] 0 0).map
      (fun rs => rs.map (fun r => (r.id, r.column))) =
      .ok [("b", 0), ("a", 1)] ∧
    evLexA.id < evLexB.id := by
  constructor
  · rfl
  · show ("a" : String) < "b"
    simp
    decide

/-- C3 (amended): no identifier-based reordering exists; within an overlap
group the column index of each rendered event is exactly its position in the
group (insertion order), independent of the identifiers. -/
theorem c3_amended_no_id_sort (offH : Int) (tz : TimeZone)
    (cals : List (String × String)) (date now : Int)
    (htz : tz.valid = true) (grp : List Event)
    (hknown : ∀ e ∈ grp, (cals.lookup e.calendar).isSome = true) :
    ∃ rects,
      layoutGroupAux offH tz cals date now grp.length 0 grp = .ok rects ∧
      rects.map (fun r => r.id) = grp.map (fun e => e.id) ∧
      rects.map (fun r => r.column) = List.range' 0 grp.length :=
  layoutGroupAux_known_ok offH tz cals date now grp.length htz grp 0 hknown

/-- Witness for C3's amended statement at a concrete group. -/
theorem c3_witness :
    ∃ rects,
      layoutGroupAux 0 utcTZ demoCals 0 0 2 0 [evLexB, evLexA] =
        .ok rects ∧
      rects.map (fun r => r.id) = ["b", "a"] ∧
      rects.map (fun r => r.column) = List.range' 0 2 := by
  have h := c3_amended_no_id_sort 0 utcTZ demoCals 0 0 rfl
    [evLexB, evLexA] (by decide)
  simpa [evLexB, evLexA] using h

/-! Claim C4. -/

theorem layoutGeom_clamp_bottom (date now : Int) (g i : Nat) (idStr : String)
    (s t : Int) (hs1 : dayStartOf 0 date ≤ s)
    (ht : dayStartOf 0 date + msPerDay - 1 < t) :
    (layoutGeom 0 date now g i idStr s t).continuesToNextDay = true ∧
    (layoutGeom 0 date now g i idStr s t).continuesFromPrevDay = false ∧
    (layoutGeom 0 date now g i idStr s t).eventDuration =
      ((dayStartOf 0 date + msPerDay - 1 - s : Int) : ℚ) /
        (msPerMinute : ℚ) := by
  have hne : ¬ s < dayStartOf 0 date := not_lt.mpr hs1
  have hmax : (if dayStartOf 0 date < s then s else dayStartOf 0 date) = s := by
    rcases lt_or_eq_of_le hs1 with h | h
    · simp [h]
    · simp [← h]
  simp only [layoutGeom, gt_iff_lt]
  refine ⟨?_, ?_, ?_⟩
  · exact decide_eq_true ht
  · exact decide_eq_false hne
  · rw [if_pos ht, hmax]

theorem layoutGeom_clamp_top (date now : Int) (g i : Nat) (idStr : String)
    (s t : Int) (hs : s < dayStartOf 0 date) :
    (layoutGeom 0 date now g i idStr s t).continuesFromPrevDay = true ∧
    (layoutGeom 0 date now g i idStr s t).eventMinutes = 0 := by
  simp only [layoutGeom]
  exact ⟨decide_eq_true hs, if_pos hs⟩

/-- C4: an event that starts on day D and ends inside day D+1 is returned by
getEventsForDate for both days; laid out on day D it gets the
continues-to-next-day flag (bottom rounding suppressed) and its height is
clamped to the remainder of the day, and laid out on day D+1 its vertical
start clamps to 0 and it gets the continues-from-previous-day flag (top
rounding suppressed). -/
theorem c4_midnight_spanning (events : List Event) (e : Event) (d : Int)
    (he : e ∈ events)
    (h1 : msPerDay * d ≤ e.startDate)
    (h2 : e.startDate < msPerDay * (d + 1))
    (h3 : msPerDay * (d + 1) < e.endDate)
    (h4 : e.endDate ≤ msPerDay * (d + 2))
    (ha : e.startDate % msPerMinute = 0) (hb : e.endDate % msPerMinute = 0)
    (g i : Nat) (now : Int) :
    e ∈ getEventsForDate 0 events (msPerDay * d) ∧
    e ∈ getEventsForDate 0 events (msPerDay * (d + 1)) ∧
    (layoutEvent 0 utcTZ (msPerDay * d) now g i e).map
      (fun r => (r.continuesToNextDay, r.continuesFromPrevDay,
        r.eventDuration)) =
      .ok (true, false,
        ((msPerDay * d + msPerDay - 1 - e.startDate : Int) : ℚ) /
          (msPerMinute : ℚ)) ∧
    (layoutEvent 0 utcTZ (msPerDay * (d + 1)) now g i e).map
      (fun r => (r.continuesFromPrevDay, r.eventMinutes)) =
      .ok (true, 0) := by
  have P0 : (86400000 : Int) * d ≤ e.startDate := h1
  have P1 : e.startDate < 86400000 * (d + 1) := h2
  have P2 : (86400000 : Int) * (d + 1) < e.endDate := h3
  have hs : minuteFloor (e.startDate + utcTZ.offsetAt e.startDate) - 0 =
      e.startDate := by
    show minuteFloor (e.startDate + 0) - 0 = e.startDate
    rw [add_zero, minuteFloor_eq_self ha, sub_zero]
  have hez : minuteFloor (e.endDate + utcTZ.offsetAt e.endDate) - 0 =
      e.endDate := by
    show minuteFloor (e.endDate + 0) - 0 = e.endDate
    rw [add_zero, minuteFloor_eq_self hb, sub_zero]
  have hd0 := dayStartOf_zero_mul d
  have hd1 := dayStartOf_zero_mul (d + 1)
  have hl0 := layoutEvent_ok 0 utcTZ (msPerDay * d) now g i e rfl
  rw [hs, hez] at hl0
  have hl1 := layoutEvent_ok 0 utcTZ (msPerDay * (d + 1)) now g i e rfl
  rw [hs, hez] at hl1
  refine ⟨?_, ?_, ?_, ?_⟩
  · simp only [getEventsForDate, List.mem_filter, Bool.and_eq_true,
      decide_eq_true_eq, ge_iff_le]
    refine ⟨he, ?_, ?_⟩
    · rw [hd0]
      show e.startDate ≤ 86400000 * d + 86400000 - 1
      omega
    · rw [hd0]
      show (86400000 : Int) * d ≤ e.endDate
      omega
  · simp only [getEventsForDate, List.mem_filter, Bool.and_eq_true,
      decide_eq_true_eq, ge_iff_le]
    refine ⟨he, ?_, ?_⟩
    · rw [hd1]
      show e.startDate ≤ 86400000 * (d + 1) + 86400000 - 1
      omega
    · rw [hd1]
      show (86400000 : Int) * (d + 1) ≤ e.endDate
      omega
  · rw [hl0]
    have hclamp := layoutGeom_clamp_bottom (msPerDay * d) now g i e.id
      e.startDate e.endDate
      (by rw [hd0]; exact h1)
      (by rw [hd0]; show 86400000 * d + 86400000 - 1 < e.endDate; omega)
    rw [show Except.map (fun r => (r.continuesToNextDay,
        r.continuesFromPrevDay, r.eventDuration))
        (Except.ok (ε := Unit) (layoutGeom 0 (msPerDay * d) now g i e.id
          e.startDate e.endDate)) =
      Except.ok ((layoutGeom 0 (msPerDay * d) now g i e.id e.startDate
          e.endDate).continuesToNextDay,
        (layoutGeom 0 (msPerDay * d) now g i e.id e.startDate
          e.endDate).continuesFromPrevDay,
        (layoutGeom 0 (msPerDay * d) now g i e.id e.startDate
          e.endDate).eventDuration) from rfl]
    rw [hclamp.1, hclamp.2.1, hclamp.2.2, hd0]
  · rw [hl1]
    have hclamp := layoutGeom_clamp_top (msPerDay * (d + 1)) now g i e.id
      e.startDate e.endDate (by rw [hd1]; exact h2)
    rw [show Except.map (fun r => (r.continuesFromPrevDay, r.eventMinutes))
        (Except.ok (ε := Unit) (layoutGeom 0 (msPerDay * (d + 1)) now g i
          e.id e.startDate e.endDate)) =
      Except.ok ((layoutGeom 0 (msPerDay * (d + 1)) now g i e.id
          e.startDate e.endDate).continuesFromPrevDay,
        (layoutGeom 0 (msPerDay * (d + 1)) now g i e.id e.startDate
          e.endDate).eventMinutes) from rfl]
    rw [hclamp.1, hclamp.2]

def evSpan : Event := ⟨"sp", "Span", 36000000, 90000000, "personal", false⟩

/-- Witness for C4: an event from 10:00 of day 0 to 01:00 of day 1. -/
theorem c4_witness :
    evSpan ∈ getEventsForDate 0 [evSpan] (msPerDay * 0) ∧
    evSpan ∈ getEventsForDate 0 [evSpan] (msPerDay * (0 + 1)) ∧
    (layoutEvent 0 utcTZ (msPerDay * 0) 0 1 0 evSpan).map
      (fun r => (r.continuesToNextDay, r.continuesFromPrevDay,
        r.eventDuration)) =
      .ok (true, false,
        ((msPerDay * 0 + msPerDay - 1 - evSpan.startDate : Int) : ℚ) /
          (msPerMinute : ℚ)) ∧
    (layoutEvent 0 utcTZ (msPerDay * (0 + 1)) 0 1 0 evSpan).map
      (fun r => (r.continuesFromPrevDay, r.eventMinutes)) =
      .ok (true, 0) :=
  c4_midnight_spanning [evSpan] evSpan 0 (by decide) (by decide) (by decide)
    (by decide) (by decide) (by decide) (by decide) 1 0 0

/-! Claim C5. -/

def evHalfMin : Event := ⟨"h", "Half", 0, 90000, "personal", false⟩

/-- C5 counterexample: an event whose end instant equals now exactly
(90000 ms, i.e. 00:01:30) is marked past, because the comparison uses the
converted end, truncated to a whole minute (00:01:00), not the absolute end
instant. -/
theorem c5_counterexample :
    (layoutEvent 0 utcTZ 0 90000 1 0 evHalfMin).map (fun r => r.isPast) =
      .ok true ∧
    evHalfMin.endDate = 90000 := by
  constructor
  · rfl
  · rfl

/-- C5 (amended): isPast is computed from the display-converted end instant
(civil time in the display timezone truncated to a whole minute and
reinterpreted in the host timezone), compared strictly against now.  When
the display offset at the end instant equals the host offset and the end
instant is minute-aligned, this coincides with the strict comparison of the
absolute end against now, and an event ending exactly at now is then not
past. -/
theorem c5_amended_isPast (offH : Int) (tz : TimeZone) (date now : Int)
    (g i : Nat) (e : Event) (htz : tz.valid = true) :
    (layoutEvent offH tz date now g i e).map (fun r => r.isPast) =
      .ok (decide
        (minuteFloor (e.endDate + tz.offsetAt e.endDate) - offH < now)) ∧
    (tz.offsetAt e.endDate = offH → offH % msPerMinute = 0 →
      e.endDate % msPerMinute = 0 →
      (layoutEvent offH tz date now g i e).map (fun r => r.isPast) =
        .ok (decide (e.endDate < now))) ∧
    (tz.offsetAt e.endDate = offH → offH % msPerMinute = 0 →
      e.endDate % msPerMinute = 0 → e.endDate = now →
      (layoutEvent offH tz date now g i e).map (fun r => r.isPast) =
        .ok false) := by
  have hbase : (layoutEvent offH tz date now g i e).map (fun r => r.isPast) =
      .ok (decide
        (minuteFloor (e.endDate + tz.offsetAt e.endDate) - offH < now)) := by
    rw [layoutEvent_ok offH tz date now g i e htz]
    rfl
  have hconv : tz.offsetAt e.endDate = offH → offH % msPerMinute = 0 →
      e.endDate % msPerMinute = 0 →
      minuteFloor (e.endDate + tz.offsetAt e.endDate) - offH = e.endDate := by
    intro h1 h2 h3
    have hm : (e.endDate + offH) % msPerMinute = 0 := by
      simp only [msPerMinute] at h2 h3 ⊢
      omega
    rw [h1, minuteFloor_eq_self hm, add_sub_cancel_right]
  refine ⟨hbase, ?_, ?_⟩
  · intro h1 h2 h3
    rw [hbase, hconv h1 h2 h3]
  · intro h1 h2 h3 h4
    rw [hbase, hconv h1 h2 h3, h4]
    simp

/-- Witness for C5's amended statement: a minute-aligned event ending
exactly at now is not past. -/
theorem c5_witness :
    (layoutEvent 0 utcTZ 0 3600000 1 0 evA).map (fun r => r.isPast) =
      .ok false :=
  (c5_amended_isPast 0 utcTZ 0 3600000 1 0 evA rfl).2.2 rfl (by decide)
    (by decide) (by decide)

/-! Claim C6. -/

def evDST : Event :=
  ⟨"dd", "DD", 1736910000000, 1736913600000, "personal", false⟩

/-- C6 counterexample: for an event at 2025-01-15T03:00Z rendered on its UTC
day, switching the display timezone from UTC to America/Los_Angeles moves
the top fraction from 1/8 to 0 (the converted start falls on the previous
civil day and clamps to the top of the view day), which is not the offset
difference of -8 hours. -/
theorem c6_counterexample :
    (layoutEvent 0 utcTZ 1736910000000 0 1 0 evDST).map topFraction =
      .ok (1 / 8 : ℚ) ∧
    (layoutEvent 0 laTZ 1736910000000 0 1 0 evDST).map topFraction =
      .ok 0 ∧
    laTZ.offsetAt evDST.startDate - utcTZ.offsetAt evDST.startDate =
      -28800000 ∧
    (0 : ℚ) - 1 / 8 ≠ ((-28800000 : Int) : ℚ) / (msPerDay : ℚ) := by
  refine ⟨?_, ?_, ?_, ?_⟩
  · rw [layoutEvent_ok 0 utcTZ 1736910000000 0 1 0 evDST rfl]
    simp only [Except.map, Except.ok.injEq]
    norm_num [layoutGeom, topFraction, civilMinutesOfDay, dayStartOf,
      localDayIndex, minuteFloor, msPerDay, msPerMinute, evDST, utcTZ]
  · rw [layoutEvent_ok 0 laTZ 1736910000000 0 1 0 evDST rfl]
    simp only [Except.map, Except.ok.injEq]
    norm_num [layoutGeom, topFraction, civilMinutesOfDay, dayStartOf,
      localDayIndex, minuteFloor, msPerDay, msPerMinute, evDST, laTZ]
  · decide
  · norm_num [msPerDay]

/-- C6 (amended): when the converted start stays inside the view day under
both display timezones (no clamping to the day edge and no civil-day wrap),
switching timezones shifts the top fraction by exactly the difference of the
UTC offsets in force at the start instant; the offset is sampled at the
instant itself, which is what makes dates across a DST transition come out
right. -/
theorem c6_amended_offset_shift (offH date now : Int) (g i : Nat)
    (tz1 tz2 : TimeZone) (e : Event)
    (h1 : tz1.valid = true) (h2 : tz2.valid = true)
    (ho1 : tz1.offsetAt e.startDate % msPerMinute = 0)
    (ho2 : tz2.offsetAt e.startDate % msPerMinute = 0)
    (hin1 : dayStartOf offH date ≤
        minuteFloor (e.startDate + tz1.offsetAt e.startDate) - offH ∧
      minuteFloor (e.startDate + tz1.offsetAt e.startDate) - offH <
        dayStartOf offH date + msPerDay)
    (hin2 : dayStartOf offH date ≤
        minuteFloor (e.startDate + tz2.offsetAt e.startDate) - offH ∧
      minuteFloor (e.startDate + tz2.offsetAt e.startDate) - offH <
        dayStartOf offH date + msPerDay) :
    ∃ r1 r2, layoutEvent offH tz1 date now g i e = .ok r1 ∧
      layoutEvent offH tz2 date now g i e = .ok r2 ∧
      topFraction r2 - topFraction r1 =
        ((tz2.offsetAt e.startDate - tz1.offsetAt e.startDate : Int) : ℚ) /
          (msPerDay : ℚ) := by
  refine ⟨_, _, layoutEvent_ok offH tz1 date now g i e h1,
    layoutEvent_ok offH tz2 date now g i e h2, ?_⟩
  have key : civilMinutesOfDay offH
        (minuteFloor (e.startDate + tz2.offsetAt e.startDate) - offH) *
        msPerMinute =
      civilMinutesOfDay offH
        (minuteFloor (e.startDate + tz1.offsetAt e.startDate) - offH) *
        msPerMinute +
      (tz2.offsetAt e.startDate - tz1.offsetAt e.startDate) := by
    simp only [civilMinutesOfDay, minuteFloor, dayStartOf, localDayIndex,
      msPerDay, msPerMinute] at ho1 ho2 hin1 hin2 ⊢
    omega
  simp only [topFraction, layoutGeom]
  rw [if_neg (not_lt.mpr hin1.1), if_neg (not_lt.mpr hin2.1)]
  have keyQ : (civilMinutesOfDay offH
        (minuteFloor (e.startDate + tz2.offsetAt e.startDate) - offH) : ℚ) *
        (msPerMinute : Int) =
      (civilMinutesOfDay offH
        (minuteFloor (e.startDate + tz1.offsetAt e.startDate) - offH) : ℚ) *
        (msPerMinute : Int) +
      ((tz2.offsetAt e.startDate - tz1.offsetAt e.startDate : Int) : ℚ) := by
    exact_mod_cast congrArg (fun z : Int => (z : ℚ)) key
  have h60 : ((msPerMinute : Int) : ℚ) = 60000 := by norm_num [msPerMinute]
  have hday : ((msPerDay : Int) : ℚ) = 86400000 := by norm_num [msPerDay]
  rw [h60] at keyQ
  push_cast at keyQ
  rw [hday]
  field_simp
  linarith [keyQ]

def evSummer : Event :=
  ⟨"su", "Summer", 1751400000000, 1751403600000, "personal", false⟩

/-- Witness for C6's amended statement: at 2025-07-01T20:00Z (inside
daylight saving time) the America/Los_Angeles offset in force is -7 hours
and the top fraction shifts by exactly that difference. -/
theorem c6_witness :
    ∃ r1 r2, layoutEvent 0 utcTZ 1751328000000 0 1 0 evSummer = .ok r1 ∧
      layoutEvent 0 laTZ 1751328000000 0 1 0 evSummer = .ok r2 ∧
      topFraction r2 - topFraction r1 =
        ((laTZ.offsetAt evSummer.startDate -
          utcTZ.offsetAt evSummer.startDate : Int) : ℚ) / (msPerDay : ℚ) :=
  c6_amended_offset_shift 0 1751328000000 0 1 0 utcTZ laTZ evSummer rfl rfl
    (by decide) (by decide) (by decide) (by decide)

/-! Claim C7. -/

/-- C7 counterexample: with an unsupported display timezone identifier the
whole day render pass fails (the RangeError from the conversion is not
caught), even though a single event with a known calendar is on the day;
only tzOffsetMinutes of calendar-extras.js falls back to UTC. -/
theorem c7_counterexample :
    renderEventsForDay 0 invalidTZ demoCals [evA] 0 0 = .error () ∧
    tzOffsetMinutes invalidTZ 0 = 0 := by
  constructor
  · rfl
  · rfl

/-- C7 (amended): tzOffsetMinutes falls back to offset 0 (UTC) when the
timezone identifier is unsupported, and with a supported timezone the day
pass always succeeds; but the layout pass itself does not catch the
conversion error, so an unsupported display timezone aborts the entire
day's render whenever at least one day event has a known calendar —
degradation is per-pass, not per-event. -/
theorem c7_amended_fatal_per_day (offH : Int) (tz : TimeZone)
    (cals : List (String × String)) (events : List Event) (date now : Int) :
    (tz.valid = false → ∀ t : Int, tzOffsetMinutes tz t = 0) ∧
    (tz.valid = true →
      ∃ rs, renderEventsForDay offH tz cals events date now = .ok rs) ∧
    (tz.valid = false →
      (∃ e ∈ getEventsForDate offH events date,
        (cals.lookup e.calendar).isSome = true) →
      renderEventsForDay offH tz cals events date now = .error ()) := by
  refine ⟨?_, ?_, ?_⟩
  · intro h t
    simp [tzOffsetMinutes, h]
  · intro h
    obtain ⟨rs, hrs, _⟩ := renderEventsForDay_ok offH tz cals events date now h
    exact ⟨rs, hrs⟩
  · intro h hex
    exact renderEventsForDay_error offH tz cals events date now h hex

/-- Witness for C7's amended statement at concrete inputs. -/
theorem c7_witness :
    renderEventsForDay 0 invalidTZ demoCals [evC] 0 0 = .error () ∧
    tzOffsetMinutes invalidTZ 5 = 0 :=
  ⟨(c7_amended_fatal_per_day 0 invalidTZ demoCals [evC] 0 0).2.2 rfl
      ⟨evC, by decide, by decide⟩,
    (c7_amended_fatal_per_day 0 invalidTZ demoCals [evC] 0 0).1 rfl 5⟩

/-! Claim C8. -/

/-- C8: with a supported display timezone, both the day pass and the month
pass succeed, render no rectangle for events whose calendar key has no
entry in the calendar mapping, and still lay out every other event: the
identifiers of the produced rectangles are exactly those of the
known-calendar events, in layout order. -/
theorem c8_unknown_calendar_skipped (offH : Int) (tz : TimeZone)
    (cals : List (String × String)) (events : List Event) (date now : Int)
    (htz : tz.valid = true) :
    (∃ rs, renderEventsForDay offH tz cals events date now = .ok rs ∧
      rs.map (fun r => r.id) =
        ((groupConflictingEvents
          (getEventsForDate offH events date)).flatten.filter
          (fun e => (cals.lookup e.calendar).isSome)).map
          (fun e => e.id)) ∧
    (∃ ms, renderEventsForMonthDay offH tz cals events date now = .ok ms ∧
      ms.map (fun r => r.id) =
        ((getEventsForDate offH events date).filter
          (fun e => (cals.lookup e.calendar).isSome)).map
          (fun e => e.id)) := by
  constructor
  · exact renderEventsForDay_ok offH tz cals events date now htz
  · exact layoutMonthAux_ok offH tz cals now htz
      (getEventsForDate offH events date)

def evGhost : Event := ⟨"u", "Unknown", 0, 3600000, "ghost", false⟩

/-- Witness for C8: one event with an unknown calendar next to one with a
known calendar. -/
theorem c8_witness :
    (∃ rs, renderEventsForDay 0 utcTZ demoCals [evGhost, evA] 0 0 =
        .ok rs ∧
      rs.map (fun r => r.id) =
        ((groupConflictingEvents
          (getEventsForDate 0 [evGhost, evA] 0)).flatten.filter
          (fun e => (demoCals.lookup e.calendar).isSome)).map
          (fun e => e.id)) ∧
    (∃ ms, renderEventsForMonthDay 0 utcTZ demoCals [evGhost, evA] 0 0 =
        .ok ms ∧
      ms.map (fun r => r.id) =
        ((getEventsForDate 0 [evGhost, evA] 0).filter
          (fun e => (demoCals.lookup e.calendar).isSome)).map
          (fun e => e.id)) :=
  c8_unknown_calendar_skipped 0 utcTZ demoCals [evGhost, evA] 0 0 rfl

/-! Claim C9. -/

/-- C9: one render pass is a pure function of (event set, day, timezone,
calendar mapping, now): its result does not depend on the container state
left by earlier invocations, and chaining a second pass over the container
the first pass produced yields exactly the first pass's result. -/
theorem c9_pure_idempotent (offH : Int) (tz : TimeZone)
    (cals : List (String × String)) (events : List Event) (date now : Int)
    (c c' : List EventRect) :
    renderPass offH tz cals events date now c =
      renderPass offH tz cals events date now c' ∧
    (renderPass offH tz cals events date now c).bind
        (fun rs => renderPass offH tz cals events date now rs) =
      renderPass offH tz cals events date now c := by
  cases h : renderEventsForDay offH tz cals events date now with
  | error u =>
    constructor
    · simp [renderPass, h]
    · simp [renderPass, h, Except.map, Except.bind]
  | ok v =>
    constructor
    · simp [renderPass, h]
    · simp [renderPass, h, Except.map, Except.bind]

/-- Witness for C9 at concrete inputs: the pass ignores a stale container
and chaining it over its own output is stable. -/
theorem c9_witness :
    renderPass 0 utcTZ demoCals [evA] 0 0 [] =
      renderPass 0 utcTZ demoCals [evA] 0 0
        [⟨"stale", 5, 5, 3, 4, true, true, true⟩] ∧
    (renderPass 0 utcTZ demoCals [evA] 0 0 []).bind
        (fun rs => renderPass 0 utcTZ demoCals [evA] 0 0 rs) =
      renderPass 0 utcTZ demoCals [evA] 0 0 [] :=
  ⟨(c9_pure_idempotent 0 utcTZ demoCals [evA] 0 0 []
      [⟨"stale", 5, 5, 3, 4, true, true, true⟩]).1,
    (c9_pure_idempotent 0 utcTZ demoCals [evA] 0 0 [] []).2⟩
